import Mathlib

/-!
Shallow embedding of `mungegithub/mungers/mungers.go`: the munger registry
(`RegisterMunger`, `InitializeMungers`) and the per-item processing pipeline
(`MungeIssue`), together with theorems about the claims on this code.

External collaborators (the `github.Config` remote client, log output,
`cobra` flags) are modelled by their observable results only; the control
flow of the Go functions is translated line for line.
-/

set_option autoImplicit false

/-- Errors produced by this file (Go `error` values, identified by which
`fmt.Errorf` produced them) and by the external remote client (opaque,
tagged `remote`). -/
inductive Err where
  /-- Error of InitializeMungers: could not find a munger with that name. -/
  | notFound (name : String)
  /-- Error of RegisterMunger: a munger with that name already exists. -/
  | duplicate (name : String)
  /-- An opaque error returned by a `github.Config` remote call. -/
  | remote (code : Nat)
deriving DecidableEq

/-- Opaque commit record: the Go code only fetches `[]*github_api.RepositoryCommit`
and attaches it, never inspecting the entries. -/
abbrev Commit := Nat

/-- Opaque issue-event record, treated exactly like commits. -/
abbrev IssueEvent := Nat

/-- The pull request as `MungeIssue` observes it. The Go struct fields
`Merged` and `Mergeable` are `*bool` and are explicitly checked against
`nil`, hence `Option Bool`. Fields the code dereferences unconditionally
only for log formatting (`Title`, `Number`) do not influence control flow
and are omitted. -/
structure PullRequest where
  merged : Option Bool
  mergeable : Option Bool
deriving DecidableEq

/-- The issue-shaped work item (`github.MungeObject`). Its `PR`, `Commits`
and `Events` fields start out nil and are assigned during processing;
`Option` records whether the assignment has happened. -/
structure MungeObject where
  pr : Option PullRequest
  commits : Option (List Commit)
  events : Option (List IssueEvent)
deriving DecidableEq

/-- The remote client (`github.Config`) restricted to one `MungeIssue` call:
each field is the `(value, error)` pair a Go call returns. `getPR1` and
`getPR2` are the results of the first and the second `config.GetPR(obj)`
call — the remote system may answer differently after the pause. -/
structure Config where
  getPR1 : Option PullRequest × Option Err
  getPR2 : Option PullRequest × Option Err
  getFilledCommits : List Commit × Option Err
  getAllEventsForPR : List IssueEvent × Option Err
deriving DecidableEq

/-- A registered munger (implementor of the Go `PRMunger` interface):
its `Name()` and the result its one-time `Initialize(config)` call returns
during activation (`none` = success). Its per-item action
`MungePullRequest` returns nothing in Go; dispatch is recorded by name. -/
structure PRMunger where
  name : String
  initResult : Option Err
deriving DecidableEq

/-- The registry table `mungerMap` (Go `map[string]PRMunger`), as an
association list keyed by name. -/
abbrev MungerMap := List (String × PRMunger)

/-- Lookup `mungerMap[name]` in the association list. -/
def lookupMunger (mungerMap : MungerMap) (name : String) : Option PRMunger :=
  match mungerMap with
  | [] => none
  | (k, v) :: rest => if k = name then some v else lookupMunger rest name

/-- Go `RegisterMunger`: if a munger with the same name exists, return a
duplicate-name error leaving the table as it is; otherwise insert the
munger under its name. Returns the table after the call and the error. -/
def registerMunger (mungerMap : MungerMap) (munger : PRMunger) :
    MungerMap × Option Err :=
  match lookupMunger mungerMap munger.name with
  | some _ => (mungerMap, some (Err.duplicate munger.name))
  | none => (mungerMap ++ [(munger.name, munger)], none)

/-- Go `InitializeMungers`: for each requested name in order, look it up in
`mungerMap` (returning a not-found error at once if absent), append the
munger to the active list `mungers`, then run its one-time setup, returning
its error at once if it fails. Returns the active list after the call and
the error; an early return leaves the list as appended so far. -/
def initializeMungers (mungerMap : MungerMap) (requestedMungers : List String)
    (mungers : List PRMunger) : List PRMunger × Option Err :=
  match requestedMungers with
  | [] => (mungers, none)
  | name :: rest =>
    match lookupMunger mungerMap name with
    | none => (mungers, some (Err.notFound name))
    | some munger =>
      let mungers := mungers ++ [munger]
      match munger.initResult with
      | some e => (mungers, some e)
      | none => initializeMungers mungerMap rest mungers

/-- How one `MungeIssue` call ends: Go `return nil`, `return err`, or a
runtime panic from dereferencing a nil pull-request pointer. -/
inductive MungeResult where
  | ok
  | err (e : Err)
  | nilDeref
deriving DecidableEq

/-- Observable record of one `MungeIssue` call: how it ended, the state of
the item when it ended, how many `time.Sleep` pauses ran, how many
`config.GetPR` calls were made, whether the dispatch loop was reached, and
the names of the mungers whose `MungePullRequest` ran, in invocation
order. -/
structure Trace where
  result : MungeResult
  obj : MungeObject
  sleeps : Nat
  getPRCalls : Nat
  reachedDispatch : Bool
  dispatched : List String
deriving DecidableEq

/-- The dispatch loop ending `MungeIssue`: invoke `MungePullRequest` of
every active munger, in list order, unconditionally (the action returns
nothing, so nothing can short-circuit the loop). -/
def dispatchAll (mungers : List PRMunger) : List String :=
  match mungers with
  | [] => []
  | munger :: rest => munger.name :: dispatchAll rest

/-- The enrichment tail of `MungeIssue`: fetch the commits and return the
error on failure, else attach them; fetch the events and return the error
on failure, else attach them; then run the dispatch loop and return nil.
`sleeps` and `getPRCalls` carry the counts accumulated before this point. -/
def mungeEnrich (config : Config) (mungers : List PRMunger) (obj : MungeObject)
    (sleeps getPRCalls : Nat) : Trace :=
  match config.getFilledCommits with
  | (_, some e) => ⟨MungeResult.err e, obj, sleeps, getPRCalls, false, []⟩
  | (commits, none) =>
    let obj := { obj with commits := some commits }
    match config.getAllEventsForPR with
    | (_, some e) => ⟨MungeResult.err e, obj, sleeps, getPRCalls, false, []⟩
    | (events, none) =>
      let obj := { obj with events := some events }
      ⟨MungeResult.ok, obj, sleeps, getPRCalls, true, dispatchAll mungers⟩

/-- Go `MungeIssue`, line for line.
Step 1: `pr, err := config.GetPR(obj)`; on error `return nil` (swallowed).
Step 2: `if pr == nil` the code only prints the skipping message and falls
through — so the next line, reading `pr.Merged`, dereferences a nil
pointer; the model records this as `MungeResult.nilDeref`.
Step 3: a merged PR (`pr.Merged != nil && *pr.Merged`) returns nil at once,
before `obj.PR` is assigned.
Step 4: `obj.PR = pr`; then if `pr.Mergeable == nil`, sleep once and
re-fetch once into the local `pr` (never into `obj.PR`): a re-fetch error
is returned; a nil re-fetched PR makes the following `pr.Mergeable` read a
nil dereference; otherwise processing continues even if mergeability is
still unknown (the code only logs).
Step 5: enrichment and dispatch (`mungeEnrich`). -/
def mungeIssue (config : Config) (mungers : List PRMunger) (obj : MungeObject) :
    Trace :=
  match config.getPR1 with
  | (_, some _) => ⟨MungeResult.ok, obj, 0, 1, false, []⟩
  | (none, none) => ⟨MungeResult.nilDeref, obj, 0, 1, false, []⟩
  | (some pr, none) =>
    if pr.merged = some true then ⟨MungeResult.ok, obj, 0, 1, false, []⟩
    else
      let obj := { obj with pr := some pr }
      match pr.mergeable with
      | some _ => mungeEnrich config mungers obj 0 1
      | none =>
        match config.getPR2 with
        | (_, some e) => ⟨MungeResult.err e, obj, 1, 2, false, []⟩
        | (none, none) => ⟨MungeResult.nilDeref, obj, 1, 2, false, []⟩
        | (some _, none) => mungeEnrich config mungers obj 1 2

/-- A fresh item as the poll loop creates it: no PR, commits or events
attached yet. -/
def objFresh : MungeObject := ⟨none, none, none⟩

/-! ### Claim C1 — nil pull request (code bug: missing return) -/

/-- A remote client whose PR lookup succeeds and reports that the item is
not a pull request (`GetPR` returns `(nil, nil)`). -/
def cfgNotAPR : Config := ⟨(none, none), (none, none), ([3], none), ([5], none)⟩

/-- C1: the claim says an item whose successful lookup returns a nil pull
request completes `MungeIssue` with no error and no dispatch. The code
prints the skipping message but is missing the return, so the very next
line dereferences the nil `pr` at `pr.Merged`: the call crashes with a
nil-pointer dereference instead of completing. This theorem evaluates the
embedding at that failing input. No handler is dispatched, but the call
does not complete without error. -/
theorem mungeIssue_nil_pr_crashes :
    (mungeIssue cfgNotAPR [⟨"a", none⟩] objFresh).result = MungeResult.nilDeref ∧
    (mungeIssue cfgNotAPR [⟨"a", none⟩] objFresh).result ≠ MungeResult.ok ∧
    (mungeIssue cfgNotAPR [⟨"a", none⟩] objFresh).dispatched = [] := by
  decide

/-! ### Claim C4 — initial lookup error is swallowed -/

/-- C4: if the first `config.GetPR` call returns an error, `MungeIssue`
returns nil (the error is swallowed), the item is left untouched, no
pause or second fetch happens, nothing is enriched and no munger is
dispatched. -/
theorem mungeIssue_lookup_error_swallowed (config : Config)
    (mungers : List PRMunger) (obj : MungeObject)
    (prOpt : Option PullRequest) (e : Err)
    (h : config.getPR1 = (prOpt, some e)) :
    mungeIssue config mungers obj = ⟨MungeResult.ok, obj, 0, 1, false, []⟩ := by
  unfold mungeIssue
  rw [h]
  cases prOpt <;> rfl

/-- Witness for C4 at a concrete failing lookup. -/
theorem mungeIssue_lookup_error_swallowed_witness :
    mungeIssue ⟨(none, some (Err.remote 1)), (none, none), ([3], none), ([5], none)⟩
        [⟨"a", none⟩] objFresh
      = ⟨MungeResult.ok, objFresh, 0, 1, false, []⟩ :=
  mungeIssue_lookup_error_swallowed _ _ _ none (Err.remote 1) rfl

/-! ### Claim C9 — merged pull requests are skipped -/

/-- C9: an item whose resolved pull request is marked merged makes
`MungeIssue` return nil at once: the item is left untouched (in particular
no commit or event enrichment happened) and no munger is dispatched. -/
theorem mungeIssue_merged_skips (config : Config)
    (mungers : List PRMunger) (obj : MungeObject) (pr : PullRequest)
    (h1 : config.getPR1 = (some pr, none))
    (h2 : pr.merged = some true) :
    mungeIssue config mungers obj = ⟨MungeResult.ok, obj, 0, 1, false, []⟩ := by
  unfold mungeIssue
  rw [h1]
  simp [h2]

/-- Witness for C9 at a concrete merged pull request. -/
theorem mungeIssue_merged_skips_witness :
    mungeIssue ⟨(some ⟨some true, some true⟩, none), (none, none), ([3], none), ([5], none)⟩
        [⟨"a", none⟩] objFresh
      = ⟨MungeResult.ok, objFresh, 0, 1, false, []⟩ :=
  mungeIssue_merged_skips _ _ _ ⟨some true, some true⟩ rfl rfl

/-! ### Claim C8 — duplicate registration is rejected -/

/-- C8: registering a munger whose name is already in the table returns the
duplicate-name error and leaves the table unchanged, so the name still maps
to the first munger registered under it. -/
theorem registerMunger_duplicate (mungerMap : MungerMap) (munger m0 : PRMunger)
    (h : lookupMunger mungerMap munger.name = some m0) :
    registerMunger mungerMap munger = (mungerMap, some (Err.duplicate munger.name)) ∧
    lookupMunger (registerMunger mungerMap munger).1 munger.name = some m0 := by
  unfold registerMunger
  rw [h]
  exact ⟨rfl, h⟩

/-- Witness for C8: a second munger named `a` is rejected and the first one
is retained. -/
theorem registerMunger_duplicate_witness :
    registerMunger [("a", ⟨"a", none⟩)] ⟨"a", some (Err.remote 2)⟩
      = ([("a", ⟨"a", none⟩)], some (Err.duplicate "a")) ∧
    lookupMunger (registerMunger [("a", ⟨"a", none⟩)] ⟨"a", some (Err.remote 2)⟩).1 "a"
      = some ⟨"a", none⟩ :=
  registerMunger_duplicate [("a", ⟨"a", none⟩)] ⟨"a", some (Err.remote 2)⟩ ⟨"a", none⟩ rfl

/-! ### Claim C2 — mergeability wait and re-fetch -/

/-- An eligible pull request whose mergeability is not yet known. -/
def prUnknownMergeable : PullRequest := ⟨some false, none⟩

/-- A client for which the first lookup yields `prUnknownMergeable` and the
re-fetch fails, while the enrichment fetches would succeed. -/
def cfgRefetchFails : Config :=
  ⟨(some prUnknownMergeable, none), (none, some (Err.remote 7)), ([3], none), ([5], none)⟩

/-- C2 counterexample: the claim says that after the single wait and
re-fetch, processing proceeds to enrichment regardless of the re-fetch
outcome, including a re-fetch error. In the code a re-fetch error is
returned at once: here `MungeIssue` ends with that error, the commit fetch
(which would have succeeded with `[3]`) is never reached, and nothing is
dispatched — it did not proceed to enrichment. -/
theorem mungeIssue_refetch_error_aborts :
    (mungeIssue cfgRefetchFails [⟨"a", none⟩] objFresh).result
      = MungeResult.err (Err.remote 7) ∧
    (mungeIssue cfgRefetchFails [⟨"a", none⟩] objFresh).obj.commits = none ∧
    (mungeIssue cfgRefetchFails [⟨"a", none⟩] objFresh).dispatched = [] := by
  decide

/-- Helper: under a nil-mergeability pull request, `mungeIssue` reduces to
the case split on the second `GetPR` call. Shared by the retry claims. -/
theorem mungeIssue_retry_cases (config : Config)
    (mungers : List PRMunger) (obj : MungeObject) (pr : PullRequest)
    (h1 : config.getPR1 = (some pr, none))
    (h2 : pr.merged ≠ some true)
    (h3 : pr.mergeable = none) :
    mungeIssue config mungers obj =
      match config.getPR2 with
      | (_, some e) =>
        ⟨MungeResult.err e, { obj with pr := some pr }, 1, 2, false, []⟩
      | (none, none) =>
        ⟨MungeResult.nilDeref, { obj with pr := some pr }, 1, 2, false, []⟩
      | (some _, none) => mungeEnrich config mungers { obj with pr := some pr } 1 2 := by
  unfold mungeIssue
  rw [h1]
  simp [h2, h3]

/-- Helper: `mungeEnrich` never changes the attached pull request. -/
theorem mungeEnrich_pr (config : Config) (mungers : List PRMunger)
    (obj : MungeObject) (sleeps getPRCalls : Nat) :
    (mungeEnrich config mungers obj sleeps getPRCalls).obj.pr = obj.pr := by
  unfold mungeEnrich
  rcases config.getFilledCommits with ⟨c, _ | e⟩
  · rcases config.getAllEventsForPR with ⟨v, _ | e2⟩ <;> rfl
  · rfl

/-- C2 amended: an item whose pull request has nil mergeability triggers
exactly one sleep and exactly one re-fetch; if the re-fetch returns a pull
request without error, processing proceeds to enrichment even when
mergeability is still unknown (the code only logs); but a re-fetch error is
returned at once, without enrichment or dispatch. -/
theorem mungeIssue_mergeability_retry (config : Config)
    (mungers : List PRMunger) (obj : MungeObject) (pr : PullRequest)
    (h1 : config.getPR1 = (some pr, none))
    (h2 : pr.merged ≠ some true)
    (h3 : pr.mergeable = none) :
    (mungeIssue config mungers obj).sleeps = 1 ∧
    (mungeIssue config mungers obj).getPRCalls = 2 ∧
    (∀ prOpt e, config.getPR2 = (prOpt, some e) →
      mungeIssue config mungers obj
        = ⟨MungeResult.err e, { obj with pr := some pr }, 1, 2, false, []⟩) ∧
    (∀ pr2, config.getPR2 = (some pr2, none) →
      mungeIssue config mungers obj
        = mungeEnrich config mungers { obj with pr := some pr } 1 2) := by
  have hbody := mungeIssue_retry_cases config mungers obj pr h1 h2 h3
  refine ⟨?_, ?_, ?_, ?_⟩
  · rw [hbody]
    rcases hpr2 : config.getPR2 with ⟨prOpt, eOpt⟩
    cases eOpt with
    | some e => cases prOpt <;> rfl
    | none =>
      cases prOpt with
      | none => rfl
      | some pr2 => simp [mungeEnrich]; rcases config.getFilledCommits with ⟨c, _ | e⟩ <;>
          first
          | rfl
          | (rcases config.getAllEventsForPR with ⟨v, _ | e2⟩ <;> rfl)
  · rw [hbody]
    rcases hpr2 : config.getPR2 with ⟨prOpt, eOpt⟩
    cases eOpt with
    | some e => cases prOpt <;> rfl
    | none =>
      cases prOpt with
      | none => rfl
      | some pr2 => simp [mungeEnrich]; rcases config.getFilledCommits with ⟨c, _ | e⟩ <;>
          first
          | rfl
          | (rcases config.getAllEventsForPR with ⟨v, _ | e2⟩ <;> rfl)
  · intro prOpt e hpr2
    rw [hbody, hpr2]
    cases prOpt <;> rfl
  · intro pr2 hpr2
    rw [hbody, hpr2]

/-- A witness instance for the amended C2 at a concrete client whose
re-fetch succeeds with still-unknown mergeability. -/
def cfgRetryStillUnknown : Config :=
  ⟨(some prUnknownMergeable, none), (some prUnknownMergeable, none), ([3], none), ([5], none)⟩

/-- Witness for C2 amended at `cfgRetryStillUnknown`. -/
theorem mungeIssue_mergeability_retry_witness :
    (mungeIssue cfgRetryStillUnknown [⟨"a", none⟩] objFresh).sleeps = 1 ∧
    (mungeIssue cfgRetryStillUnknown [⟨"a", none⟩] objFresh).getPRCalls = 2 ∧
    (∀ prOpt e, cfgRetryStillUnknown.getPR2 = (prOpt, some e) →
      mungeIssue cfgRetryStillUnknown [⟨"a", none⟩] objFresh
        = ⟨MungeResult.err e, { objFresh with pr := some prUnknownMergeable }, 1, 2, false, []⟩) ∧
    (∀ pr2, cfgRetryStillUnknown.getPR2 = (some pr2, none) →
      mungeIssue cfgRetryStillUnknown [⟨"a", none⟩] objFresh
        = mungeEnrich cfgRetryStillUnknown [⟨"a", none⟩]
            { objFresh with pr := some prUnknownMergeable } 1 2) :=
  mungeIssue_mergeability_retry cfgRetryStillUnknown [⟨"a", none⟩] objFresh
    prUnknownMergeable rfl (by decide) rfl

/-! ### Claim C10 — the re-fetched pull request is never attached -/

/-- C10: when mergeability was nil and the re-fetch succeeds with some pull
request `pr2`, the item still carries the originally fetched `pr` when the
call ends (the re-fetched record is only read for the mergeability log):
whatever `pr2` the re-fetch returned, handlers observe the original. -/
theorem mungeIssue_retry_keeps_original_pr (config : Config)
    (mungers : List PRMunger) (obj : MungeObject) (pr pr2 : PullRequest)
    (h1 : config.getPR1 = (some pr, none))
    (h2 : pr.merged ≠ some true)
    (h3 : pr.mergeable = none)
    (h4 : config.getPR2 = (some pr2, none)) :
    (mungeIssue config mungers obj).obj.pr = some pr := by
  rw [mungeIssue_retry_cases config mungers obj pr h1 h2 h3, h4, mungeEnrich_pr]

/-- A client whose re-fetch returns a pull request that differs from the
original in both merged state and mergeability. -/
def cfgRetryChanged : Config :=
  ⟨(some prUnknownMergeable, none), (some ⟨some true, some true⟩, none), ([3], none), ([5], none)⟩

/-- Witness for C10: the re-fetched record differs from the original, yet
the item ends the call carrying the original. -/
theorem mungeIssue_retry_keeps_original_pr_witness :
    (mungeIssue cfgRetryChanged [⟨"a", none⟩] objFresh).obj.pr = some prUnknownMergeable :=
  mungeIssue_retry_keeps_original_pr cfgRetryChanged [⟨"a", none⟩] objFresh
    prUnknownMergeable ⟨some true, some true⟩ rfl (by decide) rfl rfl

/-! ### Claims C6 and C7 — enrichment errors and the dispatch loop -/

/-- Helper: an item whose lookup succeeds with a non-merged pull request,
and whose mergeability is either already known or resolved by a successful
re-fetch, reaches the enrichment tail. -/
theorem mungeIssue_reaches_enrich (config : Config)
    (mungers : List PRMunger) (obj : MungeObject) (pr : PullRequest)
    (h1 : config.getPR1 = (some pr, none))
    (h2 : pr.merged ≠ some true)
    (h3 : pr.mergeable.isSome ∨ ∃ pr2, config.getPR2 = (some pr2, none)) :
    ∃ s n, mungeIssue config mungers obj
      = mungeEnrich config mungers { obj with pr := some pr } s n := by
  cases hm : pr.mergeable with
  | some b =>
    refine ⟨0, 1, ?_⟩
    unfold mungeIssue
    rw [h1]
    simp [h2, hm]
  | none =>
    rcases h3 with h3 | ⟨pr2, h4⟩
    · rw [hm] at h3
      simp at h3
    · exact ⟨1, 2, by rw [mungeIssue_retry_cases config mungers obj pr h1 h2 hm, h4]⟩

/-- Helper: a failing commit fetch makes the enrichment tail return that
error with no dispatch and no commits attached. -/
theorem mungeEnrich_commit_error (config : Config) (mungers : List PRMunger)
    (obj : MungeObject) (s n : Nat) (e : Err)
    (h : config.getFilledCommits.2 = some e) :
    mungeEnrich config mungers obj s n = ⟨MungeResult.err e, obj, s, n, false, []⟩ := by
  unfold mungeEnrich
  rcases hc : config.getFilledCommits with ⟨c, eOpt⟩
  rw [hc] at h
  cases h
  rfl

/-- Helper: with commits fetched, a failing event fetch makes the
enrichment tail return that error with no dispatch; only commits were
attached. -/
theorem mungeEnrich_event_error (config : Config) (mungers : List PRMunger)
    (obj : MungeObject) (s n : Nat) (e : Err)
    (hc : config.getFilledCommits.2 = none)
    (he : config.getAllEventsForPR.2 = some e) :
    mungeEnrich config mungers obj s n
      = ⟨MungeResult.err e, { obj with commits := some config.getFilledCommits.1 },
          s, n, false, []⟩ := by
  unfold mungeEnrich
  rcases hcp : config.getFilledCommits with ⟨c, cOpt⟩
  rw [hcp] at hc
  cases hc
  rcases hep : config.getAllEventsForPR with ⟨v, vOpt⟩
  rw [hep] at he
  cases he
  rfl

/-- Helper: with both fetches succeeding, the enrichment tail attaches both
lists, reaches the dispatch loop and returns nil. -/
theorem mungeEnrich_ok (config : Config) (mungers : List PRMunger)
    (obj : MungeObject) (s n : Nat)
    (hc : config.getFilledCommits.2 = none)
    (he : config.getAllEventsForPR.2 = none) :
    mungeEnrich config mungers obj s n
      = ⟨MungeResult.ok,
          { obj with commits := some config.getFilledCommits.1,
                     events := some config.getAllEventsForPR.1 },
          s, n, true, dispatchAll mungers⟩ := by
  unfold mungeEnrich
  rcases hcp : config.getFilledCommits with ⟨c, cOpt⟩
  rw [hcp] at hc
  cases hc
  rcases hep : config.getAllEventsForPR with ⟨v, vOpt⟩
  rw [hep] at he
  cases he
  rfl

/-- C6: for an item that reaches enrichment (lookup succeeded with a
non-merged pull request, mergeability known or resolved by a successful
re-fetch), a commit-fetch error is returned by `MungeIssue` and no munger
is dispatched; likewise an event-fetch error is returned with no
dispatch. -/
theorem mungeIssue_enrich_error_propagates (config : Config)
    (mungers : List PRMunger) (obj : MungeObject) (pr : PullRequest)
    (h1 : config.getPR1 = (some pr, none))
    (h2 : pr.merged ≠ some true)
    (h3 : pr.mergeable.isSome ∨ ∃ pr2, config.getPR2 = (some pr2, none)) :
    (∀ e, config.getFilledCommits.2 = some e →
      (mungeIssue config mungers obj).result = MungeResult.err e ∧
      (mungeIssue config mungers obj).dispatched = []) ∧
    (∀ e, config.getFilledCommits.2 = none → config.getAllEventsForPR.2 = some e →
      (mungeIssue config mungers obj).result = MungeResult.err e ∧
      (mungeIssue config mungers obj).dispatched = []) := by
  obtain ⟨s, n, hrun⟩ := mungeIssue_reaches_enrich config mungers obj pr h1 h2 h3
  constructor
  · intro e he
    rw [hrun, mungeEnrich_commit_error config mungers _ s n e he]
    exact ⟨rfl, rfl⟩
  · intro e hc he
    rw [hrun, mungeEnrich_event_error config mungers _ s n e hc he]
    exact ⟨rfl, rfl⟩

/-- A client whose commit fetch fails for an eligible pull request. -/
def cfgCommitFails : Config :=
  ⟨(some ⟨some false, some true⟩, none), (none, none), ([], some (Err.remote 4)), ([5], none)⟩

/-- Witness for C6: the commit-fetch error is the result and nothing is
dispatched. -/
theorem mungeIssue_enrich_error_propagates_witness :
    (∀ e, cfgCommitFails.getFilledCommits.2 = some e →
      (mungeIssue cfgCommitFails [⟨"a", none⟩] objFresh).result = MungeResult.err e ∧
      (mungeIssue cfgCommitFails [⟨"a", none⟩] objFresh).dispatched = []) ∧
    (∀ e, cfgCommitFails.getFilledCommits.2 = none →
        cfgCommitFails.getAllEventsForPR.2 = some e →
      (mungeIssue cfgCommitFails [⟨"a", none⟩] objFresh).result = MungeResult.err e ∧
      (mungeIssue cfgCommitFails [⟨"a", none⟩] objFresh).dispatched = []) :=
  mungeIssue_enrich_error_propagates cfgCommitFails [⟨"a", none⟩] objFresh
    ⟨some false, some true⟩ rfl (by decide) (Or.inl rfl)

/-- Helper: the dispatch loop invokes exactly the active mungers, by name,
in list order. -/
theorem dispatchAll_eq_map (mungers : List PRMunger) :
    dispatchAll mungers = mungers.map PRMunger.name := by
  induction mungers with
  | nil => rfl
  | cons m rest ih => simp [dispatchAll, ih]

/-- C7: a fully eligible item (lookup succeeded with a non-merged pull
request, mergeability known or resolved by a successful re-fetch, both
enrichment fetches succeed) reaches dispatch, and the sequence of invoked
per-item actions is exactly the active list's names in order — each active
munger exactly once, none skipped, none able to stop a later one. -/
theorem mungeIssue_dispatches_every_munger (config : Config)
    (mungers : List PRMunger) (obj : MungeObject) (pr : PullRequest)
    (h1 : config.getPR1 = (some pr, none))
    (h2 : pr.merged ≠ some true)
    (h3 : pr.mergeable.isSome ∨ ∃ pr2, config.getPR2 = (some pr2, none))
    (h4 : config.getFilledCommits.2 = none)
    (h5 : config.getAllEventsForPR.2 = none) :
    (mungeIssue config mungers obj).dispatched = mungers.map PRMunger.name ∧
    (mungeIssue config mungers obj).result = MungeResult.ok := by
  obtain ⟨s, n, hrun⟩ := mungeIssue_reaches_enrich config mungers obj pr h1 h2 h3
  rw [hrun, mungeEnrich_ok config mungers _ s n h4 h5]
  exact ⟨dispatchAll_eq_map mungers, rfl⟩

/-- A client for which everything succeeds for an eligible pull request. -/
def cfgAllGood : Config :=
  ⟨(some ⟨some false, some true⟩, none), (none, none), ([3], none), ([5], none)⟩

/-- Witness for C7 with three active mungers `a`, `b`, `c`. -/
theorem mungeIssue_dispatches_every_munger_witness :
    (mungeIssue cfgAllGood [⟨"a", none⟩, ⟨"b", none⟩, ⟨"c", none⟩] objFresh).dispatched
      = ([⟨"a", none⟩, ⟨"b", none⟩, ⟨"c", none⟩] : List PRMunger).map PRMunger.name ∧
    (mungeIssue cfgAllGood [⟨"a", none⟩, ⟨"b", none⟩, ⟨"c", none⟩] objFresh).result
      = MungeResult.ok :=
  mungeIssue_dispatches_every_munger cfgAllGood [⟨"a", none⟩, ⟨"b", none⟩, ⟨"c", none⟩]
    objFresh ⟨some false, some true⟩ rfl (by decide) (Or.inl rfl) rfl rfl

/-! ### Claim C3 — activation with an unknown name -/

/-- The munger registered as `a` in the concrete counterexample registry. -/
def mungerA : PRMunger := ⟨"a", none⟩

/-- A registry containing only the munger `a`. -/
def mapOnlyA : MungerMap := [("a", mungerA)]

/-- C3 counterexample: requesting `[a, b]` against a registry holding only
`a` returns the not-found error for `b`, but the active list is NOT left
empty: `a` was already appended (and its setup run) before `b` was looked
up. The claim's no-partial-activation part is false on the code. -/
theorem initializeMungers_partial_activation :
    (initializeMungers mapOnlyA ["a", "b"] []).2 = some (Err.notFound "b") ∧
    (initializeMungers mapOnlyA ["a", "b"] []).1 = [mungerA] ∧
    (initializeMungers mapOnlyA ["a", "b"] []).1 ≠ [] := by
  decide

/-- Helper: a lookup hit is a member of the association list. -/
theorem lookupMunger_mem (mungerMap : MungerMap) (name : String) (m : PRMunger)
    (h : lookupMunger mungerMap name = some m) : (name, m) ∈ mungerMap := by
  induction mungerMap with
  | nil => cases h
  | cons p rest ih =>
    rcases p with ⟨k, v⟩
    unfold lookupMunger at h
    by_cases hk : k = name
    · rw [if_pos hk] at h
      cases h
      rw [hk]
      exact List.mem_cons_self _ _
    · rw [if_neg hk] at h
      exact List.mem_cons_of_mem _ (ih h)

/-- Helper: in a well-formed registry (every entry is keyed by its munger's
name — what `registerMunger` guarantees), a looked-up munger bears the name
it was looked up under, and looking its name up again finds it. -/
theorem lookupMunger_wf (mungerMap : MungerMap)
    (hwf : ∀ p ∈ mungerMap, (p.2).name = p.1) (name : String) (m : PRMunger)
    (h : lookupMunger mungerMap name = some m) :
    m.name = name ∧ lookupMunger mungerMap m.name = some m := by
  have hn : m.name = name := hwf (name, m) (lookupMunger_mem mungerMap name m h)
  exact ⟨hn, by rw [hn]; exact h⟩

/-- Helper: running activation over a prefix of names that all resolve and
initialize cleanly, followed by an unknown name, returns the not-found
error and appends exactly the prefix's mungers to the accumulator. -/
theorem initializeMungers_prefix_then_missing (mungerMap : MungerMap)
    (hwf : ∀ p ∈ mungerMap, (p.2).name = p.1) (name : String)
    (hmiss : lookupMunger mungerMap name = none) :
    ∀ (pre rest : List String) (acc : List PRMunger),
    (∀ p ∈ pre, ∃ m, lookupMunger mungerMap p = some m ∧ m.initResult = none) →
    ∃ extra, initializeMungers mungerMap (pre ++ name :: rest) acc
        = (acc ++ extra, some (Err.notFound name)) ∧
      extra.map PRMunger.name = pre ∧
      ∀ m ∈ extra, lookupMunger mungerMap m.name = some m := by
  intro pre
  induction pre with
  | nil =>
    intro rest acc _
    refine ⟨[], ?_, rfl, by intro m hm; cases hm⟩
    simp only [List.nil_append, initializeMungers, hmiss, List.append_nil]
  | cons p ps ih =>
    intro rest acc hpre
    obtain ⟨m, hm, hinit⟩ := hpre p (List.mem_cons_self p ps)
    obtain ⟨extra, hrun, hnames, hmem⟩ :=
      ih rest (acc ++ [m]) (fun q hq => hpre q (List.mem_cons_of_mem p hq))
    refine ⟨m :: extra, ?_, ?_, ?_⟩
    · simp only [List.cons_append, initializeMungers, hm, hinit, hrun,
        List.append_assoc, List.singleton_append]
      rw [List.append_eq, hrun, List.append_assoc]
      rfl
    · obtain ⟨hn, -⟩ := lookupMunger_wf mungerMap hwf p m hm
      simp [hnames, hn]
    · intro q hq
      rcases List.mem_cons.mp hq with hq | hq
      · cases hq
        exact (lookupMunger_wf mungerMap hwf p m hm).2
      · exact hmem q hq

/-- C3 amended: against a well-formed registry, requesting names that all
resolve and initialize cleanly up to a first unknown name returns the
handler-not-found error — but activation is partial, not empty: exactly the
names before the unknown one are in the active list, in request order.
What does hold unconditionally of the error case: the active list is the
prefix of the request up to the failure, every entry resolves in the
registry table, and its name sequence is a subsequence (here: prefix) of
the requested names. -/
theorem initializeMungers_missing_name (mungerMap : MungerMap)
    (hwf : ∀ p ∈ mungerMap, (p.2).name = p.1)
    (pre rest : List String) (name : String)
    (hpre : ∀ p ∈ pre, ∃ m, lookupMunger mungerMap p = some m ∧ m.initResult = none)
    (hmiss : lookupMunger mungerMap name = none) :
    (initializeMungers mungerMap (pre ++ name :: rest) []).2
      = some (Err.notFound name) ∧
    ((initializeMungers mungerMap (pre ++ name :: rest) []).1.map PRMunger.name)
      = pre ∧
    List.Sublist
      ((initializeMungers mungerMap (pre ++ name :: rest) []).1.map PRMunger.name)
      (pre ++ name :: rest) ∧
    ∀ m ∈ (initializeMungers mungerMap (pre ++ name :: rest) []).1,
      lookupMunger mungerMap m.name = some m := by
  obtain ⟨extra, hrun, hnames, hmem⟩ :=
    initializeMungers_prefix_then_missing mungerMap hwf name hmiss pre rest [] hpre
  rw [List.nil_append] at hrun
  rw [hrun]
  refine ⟨rfl, hnames, ?_, hmem⟩
  rw [hnames]
  exact List.sublist_append_left pre (name :: rest)

/-- Witness for C3 amended: registry `{a}`, request `[a, b]`. -/
theorem initializeMungers_missing_name_witness :
    (initializeMungers mapOnlyA (["a"] ++ "b" :: []) []).2
      = some (Err.notFound "b") ∧
    ((initializeMungers mapOnlyA (["a"] ++ "b" :: []) []).1.map PRMunger.name)
      = ["a"] ∧
    List.Sublist
      ((initializeMungers mapOnlyA (["a"] ++ "b" :: []) []).1.map PRMunger.name)
      (["a"] ++ "b" :: []) ∧
    ∀ m ∈ (initializeMungers mapOnlyA (["a"] ++ "b" :: []) []).1,
      lookupMunger mapOnlyA m.name = some m :=
  initializeMungers_missing_name mapOnlyA (by decide) ["a"] [] "b"
    (by
      intro p hp
      have hpa : p = "a" := List.mem_singleton.mp hp
      subst hpa
      exact ⟨mungerA, rfl, rfl⟩)
    rfl

/-! ### Claim C5 — when the commit and event fields are populated -/

/-- A client whose event fetch fails for an eligible pull request while the
commit fetch succeeds. -/
def cfgEventFails : Config :=
  ⟨(some ⟨some false, some true⟩, none), (none, none), ([3], none), ([], some (Err.remote 9))⟩

/-- C5 counterexample: with an eligible pull request, a succeeding commit
fetch and a failing event fetch, processing stops early with the error and
dispatch is never reached — yet the commit field IS populated. So it is not
true that neither field is populated whenever processing stops early. -/
theorem mungeIssue_commits_populated_on_early_stop :
    (mungeIssue cfgEventFails [⟨"a", none⟩] objFresh).obj.commits = some [3] ∧
    (mungeIssue cfgEventFails [⟨"a", none⟩] objFresh).result
      = MungeResult.err (Err.remote 9) ∧
    (mungeIssue cfgEventFails [⟨"a", none⟩] objFresh).reachedDispatch = false ∧
    (mungeIssue cfgEventFails [⟨"a", none⟩] objFresh).dispatched = [] := by
  decide

/-- C5 amended: for a fresh item (no commits or events attached), after
`MungeIssue`: when dispatch is reached both fields are populated; the event
field is only ever populated together with the commit field; every path
that ends with nil without reaching dispatch leaves the item untouched, so
neither field is populated; and the one way to end with the commit field
populated but the event field empty is an event-fetch error, which is
returned. -/
theorem mungeIssue_population (config : Config) (mungers : List PRMunger)
    (obj : MungeObject)
    (hc : obj.commits = none) (he : obj.events = none) :
    ((mungeIssue config mungers obj).reachedDispatch = true →
      ((mungeIssue config mungers obj).obj.commits).isSome = true ∧
      ((mungeIssue config mungers obj).obj.events).isSome = true) ∧
    (((mungeIssue config mungers obj).obj.events).isSome = true →
      ((mungeIssue config mungers obj).obj.commits).isSome = true) ∧
    ((mungeIssue config mungers obj).result = MungeResult.ok ∧
        (mungeIssue config mungers obj).reachedDispatch = false →
      (mungeIssue config mungers obj).obj.commits = none ∧
      (mungeIssue config mungers obj).obj.events = none) ∧
    (((mungeIssue config mungers obj).obj.commits).isSome = true ∧
        (mungeIssue config mungers obj).obj.events = none →
      ∃ e, config.getAllEventsForPR.2 = some e ∧
        (mungeIssue config mungers obj).result = MungeResult.err e) := by
  unfold mungeIssue mungeEnrich
  split
  · simp [hc, he]
  · simp [hc, he]
  · split
    · simp [hc, he]
    · split
      · split
        · simp [hc, he]
        · split
          · rename_i heq
            refine ⟨by simp, by simp, by simp, ?_⟩
            intro _
            refine ⟨_, ?_, rfl⟩
            rw [heq]
          · simp [hc, he]
      · split
        · simp [hc, he]
        · simp [hc, he]
        · split
          · simp [hc, he]
          · split
            · rename_i heq
              refine ⟨by simp, by simp, by simp, ?_⟩
              intro _
              refine ⟨_, ?_, rfl⟩
              rw [heq]
            · simp [hc, he]

/-- Witness for C5 amended at a fully succeeding client. -/
theorem mungeIssue_population_witness :
    ((mungeIssue cfgAllGood [⟨"a", none⟩] objFresh).reachedDispatch = true →
      ((mungeIssue cfgAllGood [⟨"a", none⟩] objFresh).obj.commits).isSome = true ∧
      ((mungeIssue cfgAllGood [⟨"a", none⟩] objFresh).obj.events).isSome = true) ∧
    (((mungeIssue cfgAllGood [⟨"a", none⟩] objFresh).obj.events).isSome = true →
      ((mungeIssue cfgAllGood [⟨"a", none⟩] objFresh).obj.commits).isSome = true) ∧
    ((mungeIssue cfgAllGood [⟨"a", none⟩] objFresh).result = MungeResult.ok ∧
        (mungeIssue cfgAllGood [⟨"a", none⟩] objFresh).reachedDispatch = false →
      (mungeIssue cfgAllGood [⟨"a", none⟩] objFresh).obj.commits = none ∧
      (mungeIssue cfgAllGood [⟨"a", none⟩] objFresh).obj.events = none) ∧
    (((mungeIssue cfgAllGood [⟨"a", none⟩] objFresh).obj.commits).isSome = true ∧
        (mungeIssue cfgAllGood [⟨"a", none⟩] objFresh).obj.events = none →
      ∃ e, cfgAllGood.getAllEventsForPR.2 = some e ∧
        (mungeIssue cfgAllGood [⟨"a", none⟩] objFresh).result = MungeResult.err e) :=
  mungeIssue_population cfgAllGood [⟨"a", none⟩] objFresh rfl rfl
